import Mathlib

set_option maxHeartbeats 1000000

/-!
Verification of the PixBeat5 audio-analysis scripts
(`Python/analyze_audio_squareboom.py`, `Python/analyze_audio.py`).

The scripts are glue around the `librosa` DSP library: they post-process
the arrays the library returns (truncation, fallbacks, section labelling,
loudness windowing, key/mode decision, confidence formulas, exit policy).
The library itself is an external dependency, so its outputs (tempo
estimate, beat times, onset envelope, onset times, spectral centroids,
RMS curve, chromagram) appear below as explicit inputs, and the Lean
definitions are translated from the repository's own Python lines.
Python floats are modelled as exact rationals; values that numpy produces
as NaN/Inf (division by zero, operations on empty arrays) are modelled
with `Option`, and a raised exception with `Except`.
-/

/-! ### numpy primitives used by the scripts -/

/-- numpy scalar division `a / b`: a zero divisor produces NaN or Inf
(a non-number, modelled as `none`), not an exception. -/
def npDiv (a b : ℚ) : Option ℚ := if b = 0 then none else some (a / b)

/-- `np.mean(xs)` for a nonempty array.  (numpy yields NaN on an empty
array; every use below is guarded by a nonemptiness hypothesis or is
applied to arrays that are nonempty in the script.) -/
def meanQ (xs : List ℚ) : ℚ := xs.sum / xs.length

/-- Population variance, i.e. the square of `np.std(xs)`. -/
def varQ (xs : List ℚ) : ℚ := ((xs.map (fun x => (x - meanQ xs) ^ 2)).sum) / xs.length

/-- `np.max(xs)` for a nonempty array (numpy raises on an empty array;
the `[]` case below is unreachable in every use). -/
def npMax : List ℚ → ℚ
  | [] => 0
  | x :: xs => xs.foldl max x

/-- numpy 1-D indexing `xs[i]` with a Python-style possibly negative
index: negative indices wrap once from the end, and an index out of
range raises `IndexError` (modelled as `none`). -/
def npIndex (xs : List ℚ) (i : ℤ) : Option ℚ :=
  if 0 ≤ i then xs[i.toNat]?
  else if 0 ≤ (xs.length : ℤ) + i then xs[((xs.length : ℤ) + i).toNat]?
  else none

/-- Helper for `npArgmax`: scan the remaining entries, keeping the index
and value of the current best (strictly greater value replaces it, so the
first maximum wins, as in `np.argmax`). -/
def argmaxAux : List ℚ → ℕ → ℕ → ℚ → ℕ
  | [], _, b, _ => b
  | x :: rest, i, b, v => if v < x then argmaxAux rest (i + 1) i x else argmaxAux rest (i + 1) b v

/-- `np.argmax(xs)`: index of the first maximal entry. -/
def npArgmax : List ℚ → ℕ
  | [] => 0
  | x :: rest => argmaxAux rest 1 0 x

/-! ### Beat/tempo glue (`analyze_audio_squareboom.py` lines 34-48,
`analyze_audio.py` lines 35-47) -/

/-- The raw tempo value returned by `librosa.beat.beat_track`: either a
numpy scalar or a numpy array (possibly empty). -/
inductive NpTempo where
  | scalar (v : ℚ)
  | arr (vs : List ℚ)

/-- `if isinstance(tempo, np.ndarray): tempo = float(tempo[0]) if tempo.size > 0
else 120.0 else: tempo = float(tempo)` -/
def tempoScalar : NpTempo → ℚ
  | .scalar v => v
  | .arr [] => 120
  | .arr (v :: _) => v

/-- `beat_times = beat_times[:1000]` -/
def beatGlue (beats : List ℚ) : List ℚ := beats.take 1000

/-- `librosa.frames_to_time(i, sr=44100, hop_length=512) = i * 512 / 44100`. -/
def frameTime (i : ℕ) : ℚ := (i : ℚ) * 512 / 44100

/-- `librosa.frames_to_time(beats, sr=sr)` in `analyze_audio.py` line 44
(default hop length 512). -/
def beatFramesToTimes (frames : List ℕ) : List ℚ := frames.map frameTime

/-! ### Onset extractor (`analyze_audio_squareboom.py` lines 52-75) -/

/-- `librosa.time_to_frames(t, sr=44100)` with the default hop length 512:
`floor(t * sr / hop) = floor(t * 44100 / 512)`, an integer (negative for
negative `t`). -/
def frameOfTime (t : ℚ) : ℤ := ⌊t * 44100 / 512⌋

/-- One onset event `{"t": ..., "strength": ..., "freq": ...}`.  The
strength is an `Option` because the script's division can produce NaN. -/
structure OnsetEvent where
  t : ℚ
  strength : Option ℚ
  freq : ℚ
  deriving DecidableEq

/-- The loop `for i, onset_time in enumerate(onset_frames[:500])` (lines
65-75): each time is converted to a frame index; indices passing
`frame_idx < len(onset_env) and frame_idx < len(spectral_centroids)` are
kept with `strength = onset_env[frame_idx] / np.max(onset_env)` and
`freq = spectral_centroids[frame_idx]`, others are skipped.  An
out-of-range numpy access (possible only for a frame index below
`-len`) raises, modelled as `.error`. -/
def onsetLoop (env cents : List ℚ) : List ℚ → Except Unit (List OnsetEvent)
  | [] => .ok []
  | t :: rest =>
    let f := frameOfTime t
    if f < (env.length : ℤ) ∧ f < (cents.length : ℤ) then
      match npIndex env f, npIndex cents f with
      | some e, some c =>
        (onsetLoop env cents rest).map (fun l => ⟨t, npDiv e (npMax env), c⟩ :: l)
      | _, _ => .error ()
    else onsetLoop env cents rest

/-- The onset extractor applied to the backend outputs: onset times from
`librosa.onset.onset_detect`, the onset envelope, and the spectral
centroid row. -/
def onsetEvents (times env cents : List ℚ) : Except Unit (List OnsetEvent) :=
  onsetLoop env cents (times.take 500)

/-! ### The no-librosa fallback (`analyze_audio.py` lines 19-25, 116-133) -/

/-- Result record written by `analyze_simple` / `analyze_with_librosa`. -/
structure SimpleResult where
  tempo : ℚ
  beat_times : List ℚ
  energy_levels : List ℝ
  genre : String
  key : String
  mode : String
  mood : String
  confidence : ℚ

/-- The fixed dictionary built by `analyze_simple` (lines 119-128). -/
noncomputable def analyzeSimpleResult : SimpleResult where
  tempo := 120
  beat_times := (List.range 120).map (fun i : ℕ => (i : ℚ) * 0.5)
  energy_levels := (List.range 100).map (fun i : ℕ => 0.5 + 0.3 * Real.sin ((i : ℝ) * 0.1))
  genre := "Unknown"
  key := "C"
  mode := "major"
  mood := "Neutral"
  confidence := 0.5

/-- `analyze_simple(audio_path, output_path)`: the audio path is never
read; the fixed dictionary is written regardless. -/
noncomputable def analyze_simple (_audioPath : String) : SimpleResult :=
  analyzeSimpleResult

/-! ### Claim theorems: C1 and C10 -/

/-- Claim C1, corrected at the counterexample below: the glue converts the
backend tempo to exactly one scalar, falling back to `120.0` only when the
backend returns an *empty array*; a degenerate scalar (such as `0.0`)
passes through unchanged, so `tempo ∈ (0, 400]` is not enforced.  The beat
list is truncated to at most 1000 entries; strict increase and membership
in `[0, duration]` are preserved by the truncation (both variants),
but are inherited from the backend rather than established by the code. -/
theorem C1_beat_tempo_glue (beats : List ℚ) (frames : List ℕ) (dur : ℚ) :
    tempoScalar (NpTempo.arr []) = 120 ∧
    (∀ v, tempoScalar (NpTempo.scalar v) = v) ∧
    (∀ v vs, tempoScalar (NpTempo.arr (v :: vs)) = v) ∧
    (beatGlue beats).length ≤ 1000 ∧
    (List.Chain' (· < ·) beats → List.Chain' (· < ·) (beatGlue beats)) ∧
    ((∀ t ∈ beats, 0 ≤ t ∧ t ≤ dur) → ∀ t ∈ beatGlue beats, 0 ≤ t ∧ t ≤ dur) ∧
    (List.Chain' (· < ·) frames →
      List.Chain' (· < ·) (beatGlue (beatFramesToTimes frames))) := by
  refine ⟨rfl, fun v => rfl, fun v vs => rfl, ?_, ?_, ?_, ?_⟩
  · exact List.length_take_le 1000 beats
  · intro h
    exact h.take 1000
  · intro h t ht
    exact h t (List.take_subset 1000 beats ht)
  · intro h
    apply List.Chain'.take
    rw [beatFramesToTimes, List.chain'_map]
    refine h.imp ?_
    intro a b hab
    have hq : (a : ℚ) < (b : ℚ) := by exact_mod_cast hab
    unfold frameTime
    have h512 : (0:ℚ) < 512 := by norm_num
    have h44 : (0:ℚ) < 44100 := by norm_num
    exact (div_lt_div_iff_of_pos_right h44).mpr (mul_lt_mul_of_pos_right hq h512)

/-- Counterexample to claim C1 as stated: a degenerate backend tempo
estimate given as the scalar `0.0` is emitted unchanged (no fallback to
`120.0` fires and no clamping to `(0, 400]` exists in the code). -/
theorem C1_tempo_not_in_range_counterexample :
    tempoScalar (NpTempo.scalar 0) = 0 ∧ ¬ (0 < (0 : ℚ)) :=
  ⟨rfl, by norm_num⟩

/-- Witness for `C1_beat_tempo_glue` at a concrete input. -/
theorem C1_beat_tempo_glue_witness :
    List.Chain' (· < ·) [(0 : ℚ), 1/2, 1] ∧
    (∀ t ∈ [(0 : ℚ), 1/2, 1], 0 ≤ t ∧ t ≤ 2) ∧
    List.Chain' (· < ·) (beatGlue [(0 : ℚ), 1/2, 1]) ∧
    (∀ t ∈ beatGlue [(0 : ℚ), 1/2, 1], 0 ≤ t ∧ t ≤ 2) ∧
    (beatGlue [(0 : ℚ), 1/2, 1]).length ≤ 1000 := by
  have h := C1_beat_tempo_glue [(0 : ℚ), 1/2, 1] [0, 21, 43] 2
  have h1 : List.Chain' (· < ·) [(0 : ℚ), 1/2, 1] := by norm_num
  have h2 : ∀ t ∈ [(0 : ℚ), 1/2, 1], 0 ≤ t ∧ t ≤ 2 := by
    intro t ht
    simp only [List.mem_cons, List.mem_singleton] at ht
    rcases ht with rfl | rfl | rfl | h
    · norm_num
    · norm_num
    · norm_num
    · simp at h
  exact ⟨h1, h2, h.2.2.2.2.1 h1, h.2.2.2.2.2.1 h2, h.2.2.2.1⟩

/-- Claim C10: with librosa unavailable, `analyze_simple` writes the same
fixed result for every input path: tempo `120.0`, beat times `i * 0.5` for
`i = 0..119` (120 of them), 100 energy levels, genre `"Unknown"`, key
`"C"`, mode `"major"`, mood `"Neutral"`, confidence `0.5`. -/
theorem C10_fallback_constant (p q : String) :
    analyze_simple p = analyze_simple q ∧
    (analyze_simple p).tempo = 120 ∧
    (analyze_simple p).beat_times = (List.range 120).map (fun i : ℕ => (i : ℚ) * 0.5) ∧
    (analyze_simple p).beat_times.length = 120 ∧
    (∀ i : ℕ, (analyze_simple p).beat_times.getD i 0 =
      if i < 120 then (i : ℚ) / 2 else 0) ∧
    (analyze_simple p).energy_levels.length = 100 ∧
    (analyze_simple p).genre = "Unknown" ∧
    (analyze_simple p).key = "C" ∧
    (analyze_simple p).mode = "major" ∧
    (analyze_simple p).mood = "Neutral" ∧
    (analyze_simple p).confidence = 1/2 := by
  have hb : (analyze_simple p).beat_times = (List.range 120).map (fun i : ℕ => (i : ℚ) * 0.5) := rfl
  refine ⟨rfl, rfl, rfl, ?_, ?_, ?_, rfl, rfl, rfl, rfl, ?_⟩
  · rw [hb, List.length_map, List.length_range]
  · intro i
    rw [hb]
    by_cases hi : i < 120
    · rw [if_pos hi, List.getD_eq_getElem?_getD, List.getElem?_map, List.getElem?_range hi]
      show (i : ℚ) * 0.5 = (i : ℚ) / 2
      ring
    · rw [if_neg hi, List.getD_eq_getElem?_getD, List.getElem?_eq_none, Option.getD_none]
      rw [List.length_map, List.length_range]
      exact Nat.le_of_not_lt hi
  · show ((List.range 100).map (fun i : ℕ => 0.5 + 0.3 * Real.sin ((i : ℝ) * 0.1))).length = 100
    rw [List.length_map, List.length_range]
  · show (0.5 : ℚ) = 1/2
    norm_num

/-! ### Helper lemmas about `npMax` and the onset loop -/

theorem le_foldl_max (xs : List ℚ) (b : ℚ) : b ≤ xs.foldl max b := by
  induction xs generalizing b with
  | nil => exact le_refl b
  | cons x xs ih => exact le_trans (le_max_left b x) (ih (max b x))

theorem mem_le_foldl_max : ∀ (xs : List ℚ) (b a : ℚ), a ∈ xs → a ≤ xs.foldl max b
  | [], _, _, h => absurd h (List.not_mem_nil _)
  | x :: xs, b, a, h => by
    rcases List.mem_cons.mp h with rfl | h2
    · exact le_trans (le_max_right b a) (le_foldl_max xs (max b a))
    · exact mem_le_foldl_max xs (max b x) a h2

theorem mem_le_npMax {a : ℚ} : ∀ {xs : List ℚ}, a ∈ xs → a ≤ npMax xs := by
  intro xs h
  cases xs with
  | nil => cases h
  | cons x xs =>
    rcases List.mem_cons.mp h with rfl | h2
    · exact le_foldl_max xs a
    · exact mem_le_foldl_max xs x a h2

theorem onsetLoop_ok (env cents : List ℚ)
    (henv : ∀ x ∈ env, 0 ≤ x) (hmax : 0 < npMax env) :
    ∀ ts : List ℚ, (∀ t ∈ ts, 0 ≤ t) →
    ∃ l, onsetLoop env cents ts = .ok l ∧
      (l.map OnsetEvent.t).Sublist ts ∧
      ∀ ev ∈ l, ∃ f : ℕ,
        (f : ℤ) = frameOfTime ev.t ∧ f < env.length ∧ f < cents.length ∧
        ev.strength = npDiv (env.getD f 0) (npMax env) ∧
        ev.freq = cents.getD f 0 ∧
        ∃ s, ev.strength = some s ∧ 0 ≤ s ∧ s ≤ 1 := by
  intro ts
  induction ts with
  | nil =>
    intro _
    exact ⟨[], rfl, by simp, by simp⟩
  | cons t rest ih =>
    intro hnn
    obtain ⟨l', hok, hsub, hprops⟩ := ih (fun u hu => hnn u (List.mem_cons_of_mem t hu))
    have ht0 : 0 ≤ t := hnn t (List.mem_cons_self t rest)
    have hf0 : 0 ≤ frameOfTime t := by
      apply Int.floor_nonneg.mpr
      positivity
    by_cases hcond : frameOfTime t < (env.length : ℤ) ∧ frameOfTime t < (cents.length : ℤ)
    · have hfe : (frameOfTime t).toNat < env.length := by
        omega
      have hfc : (frameOfTime t).toNat < cents.length := by
        omega
      have hie : npIndex env (frameOfTime t) = some (env.getD (frameOfTime t).toNat 0) := by
        rw [npIndex, if_pos hf0, List.getElem?_eq_getElem hfe, List.getD_eq_getElem _ _ hfe]
      have hic : npIndex cents (frameOfTime t) = some (cents.getD (frameOfTime t).toNat 0) := by
        rw [npIndex, if_pos hf0, List.getElem?_eq_getElem hfc, List.getD_eq_getElem _ _ hfc]
      set e := env.getD (frameOfTime t).toNat 0 with he
      set c := cents.getD (frameOfTime t).toNat 0 with hc
      refine ⟨⟨t, npDiv e (npMax env), c⟩ :: l', ?_, ?_, ?_⟩
      · show onsetLoop env cents (t :: rest) = _
        rw [onsetLoop, if_pos hcond, hie, hic, hok]
        rfl
      · exact List.Sublist.cons₂ t hsub
      · intro ev hev
        rcases List.mem_cons.mp hev with rfl | hev2
        · refine ⟨(frameOfTime t).toNat, Int.toNat_of_nonneg hf0, hfe, hfc, rfl, rfl, ?_⟩
          have heM : e ≤ npMax env := by
            apply mem_le_npMax
            rw [he, List.getD_eq_getElem _ _ hfe]
            exact List.getElem_mem hfe
          have he0 : 0 ≤ e := by
            apply henv
            rw [he, List.getD_eq_getElem _ _ hfe]
            exact List.getElem_mem hfe
          refine ⟨e / npMax env, ?_, ?_, ?_⟩
          · show npDiv e (npMax env) = _
            rw [npDiv, if_neg (ne_of_gt hmax)]
          · exact div_nonneg he0 (le_of_lt hmax)
          · exact (div_le_one hmax).mpr heM
        · exact hprops ev hev2
    · refine ⟨l', ?_, List.Sublist.cons t hsub, hprops⟩
      show onsetLoop env cents (t :: rest) = _
      rw [onsetLoop, if_neg hcond]
      exact hok

/-! ### Claim theorems: C3 and C4 -/

/-- Claim C3, corrected at the counterexample below: every event list is
capped at 500 entries and any frame index outside the envelope or
centroid arrays is discarded; the strength/freq formulas are as claimed.
Ascending order and `strength ∈ [0, 1]`, however, are only inherited from
the backend, so they are proved here under the hypotheses that the
backend onset times are ascending and nonnegative and the onset envelope
is nonnegative with a positive maximum. -/
theorem C3_onset_events (times env cents : List ℚ)
    (hord : List.Pairwise (· ≤ ·) times) (hnn : ∀ t ∈ times, 0 ≤ t)
    (henv : ∀ x ∈ env, 0 ≤ x) (hmax : 0 < npMax env) :
    ∃ l, onsetEvents times env cents = .ok l ∧
      l.length ≤ 500 ∧
      List.Pairwise (fun a b => a.t ≤ b.t) l ∧
      ∀ ev ∈ l, ∃ f : ℕ,
        (f : ℤ) = frameOfTime ev.t ∧ f < env.length ∧ f < cents.length ∧
        ev.strength = npDiv (env.getD f 0) (npMax env) ∧
        ev.freq = cents.getD f 0 ∧
        ∃ s, ev.strength = some s ∧ 0 ≤ s ∧ s ≤ 1 := by
  obtain ⟨l, hok, hsub, hprops⟩ :=
    onsetLoop_ok env cents henv hmax (times.take 500)
      (fun u hu => hnn u (List.take_subset 500 times hu))
  refine ⟨l, hok, ?_, ?_, hprops⟩
  · calc l.length = (l.map OnsetEvent.t).length := (List.length_map _ _).symm
    _ ≤ (times.take 500).length := hsub.length_le
    _ ≤ 500 := List.length_take_le 500 times
  · have h1 : List.Pairwise (· ≤ ·) (times.take 500) :=
      List.Pairwise.sublist (List.take_sublist 500 times) hord
    have h2 : List.Pairwise (· ≤ ·) (l.map OnsetEvent.t) :=
      List.Pairwise.sublist hsub h1
    exact (List.pairwise_map).mp h2

/-- Counterexample to claim C3 as stated: if the backend hands the loop
onset times out of order, the emitted events are not ordered by `t`
ascending (the script performs no sorting of its own). -/
theorem C3_order_counterexample :
    onsetEvents [1/100, 0] [1] [7] =
      .ok [⟨1/100, some 1, 7⟩, ⟨0, some 1, 7⟩] ∧
    ¬ List.Pairwise (fun a b : OnsetEvent => a.t ≤ b.t)
      [⟨1/100, some 1, 7⟩, ⟨0, some 1, 7⟩] := by
  constructor
  · rw [onsetEvents]
    norm_num [onsetLoop, npIndex, npDiv, npMax, frameOfTime]
    rfl
  · intro h
    have := (List.pairwise_cons.mp h).1 ⟨0, some 1, 7⟩ (List.mem_singleton.mpr rfl)
    norm_num at this

/-- Witness for `C3_onset_events` at a concrete input. -/
theorem C3_onset_events_witness :
    (∀ x ∈ [(2 : ℚ)], 0 ≤ x) ∧ 0 < npMax [(2 : ℚ)] ∧
    ∃ l, onsetEvents [0, 1/100] [(2 : ℚ)] [7] = .ok l ∧
      l.length ≤ 500 ∧
      List.Pairwise (fun a b => a.t ≤ b.t) l ∧
      ∀ ev ∈ l, ∃ f : ℕ,
        (f : ℤ) = frameOfTime ev.t ∧ f < ([(2 : ℚ)] : List ℚ).length ∧
        f < ([(7 : ℚ)] : List ℚ).length ∧
        ev.strength = npDiv ([(2 : ℚ)].getD f 0) (npMax [(2 : ℚ)]) ∧
        ev.freq = [(7 : ℚ)].getD f 0 ∧
        ∃ s, ev.strength = some s ∧ 0 ≤ s ∧ s ≤ 1 := by
  refine ⟨by norm_num, by norm_num [npMax], ?_⟩
  exact C3_onset_events [0, 1/100] [2] [7]
    (by norm_num) (by norm_num) (by norm_num) (by norm_num [npMax])

/-- Claim C4 is right about the requirement and wrong about the code: the
division `onset_env[frame_idx] / np.max(onset_env)` on line 68 has *no*
epsilon guard or clamping.  On an all-zero onset envelope with a retained
onset the divisor `np.max(onset_env)` is exactly `0` and the division is
performed anyway (numpy yields NaN, modelled as `none`), contradicting
the claimed `NumericGuardTriggered`-never-fires policy; the neighbouring
divisions on lines 160 and 223 do carry `+ 1e-10` guards. -/
theorem C4_no_zero_guard :
    npMax [(0 : ℚ), 0, 0] = 0 ∧
    npDiv 0 (npMax [(0 : ℚ), 0, 0]) = none ∧
    onsetEvents [0] [0, 0, 0] [7, 7, 7] = .ok [⟨0, none, 7⟩] := by
  refine ⟨?_, ?_, ?_⟩
  · norm_num [npMax]
  · norm_num [npMax, npDiv]
  · rw [onsetEvents]
    norm_num [onsetLoop, npIndex, npDiv, npMax, frameOfTime]
    rfl

/-! ### Structural segmenter (`analyze_audio_squareboom.py` lines 106-147) -/

/-- `np.convolve(a, v)` (full mode): length `len a + len v - 1`, zero
padded outside the arrays. -/
def convFull (a v : List ℚ) : List ℚ :=
  (List.range (a.length + v.length - 1)).map
    (fun k => ((List.range (k + 1)).map (fun j => a.getD j 0 * v.getD (k - j) 0)).sum)

/-- `np.convolve(a, v, mode='same')`: the central `max(len a, len v)`
entries of the full convolution. -/
def convSame (a v : List ℚ) : List ℚ :=
  ((convFull a v).drop ((min a.length v.length - 1) / 2)).take (max a.length v.length)

/-- `np.ones(window_size)/window_size` with `window_size = 43` (line 109). -/
def smoothKernel : List ℚ := List.replicate 43 (1/43)

/-- `rms_smooth = np.convolve(rms, np.ones(43)/43, mode='same')` (line 110). -/
def rmsSmoothOf (rms : List ℚ) : List ℚ := convSame rms smoothKernel

/-- `np.diff(xs)`. -/
def npDiff (xs : List ℚ) : List ℚ := List.zipWith (fun a b => b - a) xs xs.tail

/-- The source comparison `abs(rms_diff[i]) > np.std(rms_diff) * 1.5`
(line 120 against the threshold of line 114), stated over the reals with
the genuine square root (`np.std` is the square root of `varQ`). -/
def stdExceeds (d : List ℚ) (x : ℚ) : Prop :=
  ((3 : ℝ) / 2) * Real.sqrt ((varQ d : ℚ) : ℝ) < |(x : ℝ)|

/-- The loop `for i in range(1, len(rms_diff)): if abs(rms_diff[i]) > threshold`
(lines 119-120).  The threshold test is encoded by its square, which is
exactly equivalent (`stdExceeds_iff_sq`) and keeps the test decidable. -/
def flaggedIdx (d : List ℚ) : List ℕ :=
  (List.range' 1 (d.length - 1)).filter (fun i => decide ((9/4) * varQ d < (d.getD i 0) ^ 2))

/-- `min_section_length = sr * 5 / hop_length` (line 117). -/
def minSectionGap : ℚ := 44100 * 5 / 512

/-- Tail of the acceptance scan: keep index `i` only when
`(i - section_times[-1][0]) > min_section_length` against the last
*accepted* index (line 122). -/
def acceptAux (last : ℕ) : List ℕ → List ℕ
  | [] => []
  | i :: rest =>
    if minSectionGap < (i : ℚ) - (last : ℚ) then i :: acceptAux i rest
    else acceptAux last rest

/-- The acceptance scan over the threshold-flagged indices: the first is
always accepted (`if not section_times or ...`). -/
def acceptSpacing : List ℕ → List ℕ
  | [] => []
  | i :: rest => i :: acceptAux i rest

/-- `section_times` (lines 116-123): accepted boundary frames paired with
`librosa.frames_to_time(i, sr=sr, hop_length=hop_length)`.  (The stored
`rms_diff[i]` third component is never read afterwards and is omitted.) -/
def sectionTimes (rms : List ℚ) : List (ℕ × ℚ) :=
  (acceptSpacing (flaggedIdx (npDiff (rmsSmoothOf rms)))).map (fun i => (i, frameTime i))

/-- One `{"t": ..., "label": ...}` entry. -/
structure SectionE where
  t : ℚ
  label : String
  deriving DecidableEq

/-- Lines 135-140: the label decision from local versus average energy. -/
def labelOf (avgE localE : ℚ) (cur : String) : String :=
  if avgE * 1.3 < localE then "chorus"
  else if localE < avgE * 0.7 then (if cur = "verse" then "bridge" else "verse")
  else (if cur ≠ "verse" then "verse" else "bridge")

/-- `np.mean(rms[max(0, frame_idx-43):min(len(rms), frame_idx+43)])`
(line 133), via the Python slice `drop (f - 43) after take (f + 43)`. -/
def localEnergy (rms : List ℚ) (f : ℕ) : ℚ :=
  meanQ ((rms.take (f + 43)).drop (f - 43))

/-- The labelling loop (lines 127-143): skip candidates with `time < 10`,
label the rest, threading `current_label`. -/
def labelLoop (avgE : ℚ) (rms : List ℚ) : String → List (ℕ × ℚ) → List SectionE
  | _, [] => []
  | cur, (f, t) :: rest =>
    if t < 10 then labelLoop avgE rms cur rest
    else
      (⟨t, labelOf avgE (localEnergy rms f) cur⟩ : SectionE) ::
        labelLoop avgE rms (labelOf avgE (localEnergy rms f) cur) rest

/-- `sections` as assembled on lines 106, 142 and 145-147: the fixed
`{0.0, intro}` head, the labelled boundaries, and the unconditional
outro append when `duration > 20`. -/
def sectionsOf (rms : List ℚ) (duration : ℚ) : List SectionE :=
  if 20 < duration then
    ((⟨0, "intro"⟩ : SectionE) :: labelLoop (meanQ rms) rms "intro" (sectionTimes rms))
      ++ [⟨duration - 5, "outro"⟩]
  else
    (⟨0, "intro"⟩ : SectionE) :: labelLoop (meanQ rms) rms "intro" (sectionTimes rms)

/-! ### Helper lemmas for the segmenter -/

theorem varQ_nonneg (xs : List ℚ) : 0 ≤ varQ xs := by
  apply div_nonneg
  · apply List.sum_nonneg
    intro x hx
    obtain ⟨y, _, rfl⟩ := List.mem_map.mp hx
    positivity
  · exact_mod_cast Nat.zero_le _

theorem stdExceeds_iff_sq (d : List ℚ) (x : ℚ) :
    stdExceeds d x ↔ (9/4) * varQ d < x ^ 2 := by
  have hv : (0 : ℝ) ≤ ((varQ d : ℚ) : ℝ) := by exact_mod_cast varQ_nonneg d
  have h32 : ((3 : ℝ)/2) * Real.sqrt ((varQ d : ℚ) : ℝ) =
      Real.sqrt ((9/4) * ((varQ d : ℚ) : ℝ)) := by
    rw [show (9 : ℝ)/4 * ((varQ d : ℚ) : ℝ) = ((3:ℝ)/2)^2 * ((varQ d : ℚ) : ℝ) by norm_num,
      Real.sqrt_mul (by positivity), Real.sqrt_sq (by norm_num : (0:ℝ) ≤ 3/2)]
  rw [stdExceeds, h32]
  rcases eq_or_lt_of_le (abs_nonneg ((x : ℚ) : ℝ)) with h0 | hpos
  · have hx : ((x : ℚ) : ℝ) = 0 := abs_eq_zero.mp h0.symm
    have hx' : x = 0 := by exact_mod_cast hx
    subst hx'
    constructor
    · intro h
      exact absurd h (not_lt.mpr (by rw [← h0]; exact Real.sqrt_nonneg _))
    · intro h
      nlinarith [varQ_nonneg d]
  · rw [Real.sqrt_lt' hpos, sq_abs]
    constructor
    · intro h
      have h2 : ((9/4 * varQ d : ℚ) : ℝ) < ((x ^ 2 : ℚ) : ℝ) := by push_cast; linarith
      exact_mod_cast h2
    · intro h
      have h2 : ((9/4 * varQ d : ℚ) : ℝ) < ((x ^ 2 : ℚ) : ℝ) := by exact_mod_cast h
      push_cast at h2
      linarith

theorem flaggedIdx_mem (d : List ℚ) (i : ℕ) :
    i ∈ flaggedIdx d ↔ 1 ≤ i ∧ i < d.length ∧ stdExceeds d (d.getD i 0) := by
  rw [flaggedIdx, List.mem_filter, List.mem_range'_1, decide_eq_true_eq,
    ← stdExceeds_iff_sq]
  constructor
  · rintro ⟨⟨h1, h2⟩, h3⟩
    exact ⟨h1, by omega, h3⟩
  · rintro ⟨h1, h2, h3⟩
    exact ⟨⟨h1, by omega⟩, h3⟩

theorem chain'_acceptAux :
    ∀ (l : List ℕ) (last : ℕ),
      List.Chain' (fun a b : ℕ => minSectionGap < (b : ℚ) - (a : ℚ)) (last :: acceptAux last l) := by
  intro l
  induction l with
  | nil => intro last; simp [acceptAux]
  | cons i rest ih =>
    intro last
    rw [acceptAux]
    by_cases h : minSectionGap < (i : ℚ) - (last : ℚ)
    · rw [if_pos h]
      exact List.chain'_cons.mpr ⟨h, ih i⟩
    · rw [if_neg h]
      exact ih last

theorem chain'_acceptSpacing (l : List ℕ) :
    List.Chain' (fun a b : ℕ => minSectionGap < (b : ℚ) - (a : ℚ)) (acceptSpacing l) := by
  cases l with
  | nil => simp [acceptSpacing]
  | cons i rest =>
    rw [acceptSpacing]
    exact chain'_acceptAux rest i

theorem gap_time {a b : ℕ} (h : minSectionGap < (b : ℚ) - (a : ℚ)) :
    frameTime a + 5 ≤ frameTime b := by
  rw [minSectionGap] at h
  rw [frameTime, frameTime]
  have h2 := mul_lt_mul_of_pos_right h (show (0 : ℚ) < 512/44100 by norm_num)
  nlinarith [h2]

theorem labelLoop_mem_ge (avgE : ℚ) (rms : List ℚ) :
    ∀ (st : List (ℕ × ℚ)) (cur : String) (s : SectionE),
      s ∈ labelLoop avgE rms cur st → 10 ≤ s.t := by
  intro st
  induction st with
  | nil => intro cur s h; simp [labelLoop] at h
  | cons p rest ih =>
    intro cur s h
    obtain ⟨f, t⟩ := p
    rw [labelLoop] at h
    by_cases hlt : t < 10
    · rw [if_pos hlt] at h
      exact ih cur s h
    · rw [if_neg hlt] at h
      rcases List.mem_cons.mp h with rfl | h2
      · exact le_of_not_lt hlt
      · exact ih _ s h2

/-! ### Claim theorems: C2 and C5 -/

/-- Claim C2: the section sequence always starts with `{0.0, intro}`, and
whenever `duration > 20` the entry `{duration - 5, outro}` is appended
unconditionally as the final list element, regardless of the detected
boundaries (the theorem quantifies over every RMS curve, hence over every
possible set of prior boundaries). -/
theorem C2_sections_intro_outro (rms : List ℚ) (dur : ℚ) :
    (sectionsOf rms dur).head? = some ⟨0, "intro"⟩ ∧
    (20 < dur → (sectionsOf rms dur).getLast? = some ⟨dur - 5, "outro"⟩) := by
  constructor
  · rw [sectionsOf]
    by_cases h : 20 < dur
    · rw [if_pos h]
      rfl
    · rw [if_neg h]
      rfl
  · intro h
    rw [sectionsOf, if_pos h]
    exact List.getLast?_concat _

/-- Witness for `C2_sections_intro_outro` at a concrete input. -/
theorem C2_sections_intro_outro_witness :
    (20 : ℚ) < 30 ∧
    (sectionsOf [1] 30).head? = some ⟨0, "intro"⟩ ∧
    (sectionsOf [1] 30).getLast? = some ⟨30 - 5, "outro"⟩ := by
  have h := C2_sections_intro_outro [1] 30
  exact ⟨by norm_num, h.1, h.2 (by norm_num)⟩

/-- Claim C5, corrected at the counterexample below: a boundary candidate
is flagged at frame `i` exactly when `i ≥ 1` (the loop starts at
`range(1, len(rms_diff))`, so frame 0 is never tested) and
`|rms_diff[i]| > 1.5 * std(rms_diff)`; accepted boundaries are pairwise
more than 5 seconds apart; and every section entry after the initial
intro has `t ≥ 10` (candidates earlier than 10 seconds are skipped, and
the outro at `duration - 5` exceeds 15 when it exists). -/
theorem C5_boundary_detection (d : List ℚ) (i : ℕ) (rms : List ℚ) (dur : ℚ) :
    (i ∈ flaggedIdx d ↔ 1 ≤ i ∧ i < d.length ∧ stdExceeds d (d.getD i 0)) ∧
    List.Pairwise (fun p q : ℕ × ℚ => p.2 + 5 ≤ q.2) (sectionTimes rms) ∧
    (∀ s ∈ (sectionsOf rms dur).tail, 10 ≤ s.t) := by
  refine ⟨flaggedIdx_mem d i, ?_, ?_⟩
  · have hchain := chain'_acceptSpacing (flaggedIdx (npDiff (rmsSmoothOf rms)))
    have hchain2 : List.Chain' (fun a b : ℕ => frameTime a + 5 ≤ frameTime b)
        (acceptSpacing (flaggedIdx (npDiff (rmsSmoothOf rms)))) :=
      hchain.imp (fun a b hab => gap_time hab)
    have hchain3 : List.Chain' (fun p q : ℕ × ℚ => p.2 + 5 ≤ q.2) (sectionTimes rms) := by
      rw [sectionTimes, List.chain'_map]
      exact hchain2
    haveI : IsTrans (ℕ × ℚ) (fun p q : ℕ × ℚ => p.2 + 5 ≤ q.2) :=
      ⟨fun a b c h1 h2 => by
        have hb : b.2 ≤ b.2 + 5 := by linarith
        exact le_trans h1 (le_trans hb h2)⟩
    exact List.chain'_iff_pairwise.mp hchain3
  · intro s hs
    rw [sectionsOf] at hs
    by_cases h : 20 < dur
    · rw [if_pos h, List.cons_append, List.tail_cons] at hs
      rcases List.mem_append.mp hs with h2 | h2
      · exact labelLoop_mem_ge _ _ _ _ s h2
      · rcases List.mem_singleton.mp h2 with rfl
        show (10 : ℚ) ≤ dur - 5
        linarith
    · rw [if_neg h, List.tail_cons] at hs
      exact labelLoop_mem_ge _ _ _ _ s hs

/-- Counterexample to claim C5 as stated: at frame 0 the difference value
`10` exceeds `1.5 * std`, yet the loop never flags frame 0 because it
starts at index 1. -/
theorem C5_frame_zero_counterexample :
    stdExceeds [10, 0, 0, 0] (([(10 : ℚ), 0, 0, 0]).getD 0 0) ∧
    0 ∉ flaggedIdx [(10 : ℚ), 0, 0, 0] := by
  constructor
  · rw [stdExceeds_iff_sq]
    norm_num [varQ, meanQ]
  · intro h
    have h2 := (flaggedIdx_mem _ _).mp h
    omega

/-- Witness for `C5_boundary_detection` at a concrete input. -/
theorem C5_boundary_detection_witness :
    1 ∈ flaggedIdx [(0 : ℚ), 10, 0, 0] ∧
    List.Pairwise (fun p q : ℕ × ℚ => p.2 + 5 ≤ q.2) (sectionTimes [1]) ∧
    (∀ s ∈ (sectionsOf [1] 30).tail, 10 ≤ s.t) := by
  have h := C5_boundary_detection [(0 : ℚ), 10, 0, 0] 1 [1] 30
  refine ⟨h.1.mpr ⟨by norm_num, by norm_num, ?_⟩, h.2.1, h.2.2⟩
  rw [stdExceeds_iff_sq]
  norm_num [varQ, meanQ]

/-! ### Loudness timeline (`analyze_audio_squareboom.py` lines 152-164) -/

/-- `window_samples = int(sr * 0.4)` with `sr = 44100` (line 154). -/
def windowSamples : ℕ := 17640

/-- Iteration count of `range(0, len(y) - window_samples, window_samples // 2)`
(line 156): `ceil((n - 17640) / 8820)`, zero when the signal is not longer
than one window (Python's `range` with a non-positive stop is empty). -/
def loudCount (n : ℕ) : ℕ := (n - windowSamples + 8819) / 8820

/-- The window start indices produced by that `range`. -/
def loudStarts (n : ℕ) : List ℕ := (List.range (loudCount n)).map (fun k => 8820 * k)

/-- `window = y[i:i+window_samples]` (line 157). -/
def windowAt (y : List ℚ) (i : ℕ) : List ℚ := (y.drop i).take windowSamples

/-- `np.mean(window**2)`. -/
def meanSq (w : List ℚ) : ℚ := ((w.map (fun x => x ^ 2)).sum) / w.length

/-- Lines 159-160: `rms_val = np.sqrt(np.mean(window**2))` and
`lufs = -0.691 + 10 * np.log10(rms_val + 1e-10)`, as a real number of the
window's mean square. -/
noncomputable def lufsOf (m : ℚ) : ℝ :=
  -0.691 + 10 * Real.logb 10 (Real.sqrt ((m : ℚ) : ℝ) + 1e-10)

/-- One `{"t": ..., "lufs": ...}` sample. -/
structure LoudSample where
  t : ℚ
  lufs : ℝ

/-- The sample appended for window start `i`: `t = i / sr` (line 162). -/
noncomputable def loudSampleAt (y : List ℚ) (i : ℕ) : LoudSample :=
  ⟨(i : ℚ) / 44100, lufsOf (meanSq (windowAt y i))⟩

/-- The loudness list built by the loop on lines 156-164. -/
noncomputable def loudness (y : List ℚ) : List LoudSample :=
  (loudStarts y.length).map (loudSampleAt y)

/-- `duration = len(y) / sr` (line 30). -/
def durationOf (y : List ℚ) : ℚ := (y.length : ℚ) / 44100

/-! ### Helper lemmas for the loudness timeline -/

theorem chain'_map_range' {α : Type} (R : α → α → Prop) (f : ℕ → α)
    (h : ∀ k, R (f k) (f (k + 1))) :
    ∀ (n s : ℕ), List.Chain' R ((List.range' s n).map f) := by
  intro n
  induction n with
  | zero => intro s; simp
  | succ m ih =>
    intro s
    rw [List.range'_succ, List.map_cons]
    cases m with
    | zero => simp
    | succ m2 =>
      rw [List.range'_succ, List.map_cons]
      refine List.chain'_cons.mpr ⟨h s, ?_⟩
      have := ih (s + 1)
      rwa [List.range'_succ, List.map_cons] at this

theorem loudStart_lt {n k : ℕ} (h : k < loudCount n) : 8820 * k + windowSamples < n := by
  rw [loudCount, windowSamples] at h
  have h1 := Nat.div_mul_le_self (n - 17640 + 8819) 8820
  have h2 : (k + 1) * 8820 ≤ ((n - 17640 + 8819) / 8820) * 8820 :=
    Nat.mul_le_mul_right _ h
  rw [windowSamples]
  omega

/-! ### Claim theorems: C6 -/

/-- Claim C6, corrected at the counterexample below: the loudness loop
emits one sample per start index of `range(0, len(y) - window, window//2)`,
with `t` the window start time, consecutive samples exactly
`window/2 = 0.2 s` apart, and `lufs = -0.691 + 10*log10(sqrt(mean(w^2)) + 1e-10)`
over a full `0.4 s` window; every sample satisfies `t + 0.4 < duration`,
so the timeline covers only `[0, duration - 0.4)` — not `[0, duration)` —
and is empty whenever the signal is at most one window long. -/
theorem C6_loudness_samples (y : List ℚ) :
    (loudness y).length = loudCount y.length ∧
    List.Chain' (fun a b => b.t - a.t = 1/5) (loudness y) ∧
    (∀ s_ ∈ loudness y, 0 ≤ s_.t ∧ s_.t + 2/5 < durationOf y ∧
      ∃ i : ℕ, s_ = loudSampleAt y i ∧ s_.t = (i : ℚ) / 44100 ∧
        s_.lufs = lufsOf (meanSq (windowAt y i)) ∧
        (windowAt y i).length = windowSamples) := by
  refine ⟨?_, ?_, ?_⟩
  · rw [loudness, List.length_map, loudStarts, List.length_map, List.length_range]
  · rw [loudness, loudStarts, List.map_map, List.range_eq_range']
    apply chain'_map_range'
    intro k
    show (loudSampleAt y (8820 * (k + 1))).t - (loudSampleAt y (8820 * k)).t = 1/5
    rw [loudSampleAt, loudSampleAt]
    push_cast
    ring
  · intro s_ hs
    rw [loudness, List.mem_map] at hs
    obtain ⟨i, hi, rfl⟩ := hs
    rw [loudStarts, List.mem_map] at hi
    obtain ⟨k, hk, rfl⟩ := hi
    rw [List.mem_range] at hk
    have hlt := loudStart_lt hk
    rw [windowSamples] at hlt
    refine ⟨?_, ?_, 8820 * k, rfl, rfl, rfl, ?_⟩
    · show (0 : ℚ) ≤ ((8820 * k : ℕ) : ℚ) / 44100
      positivity
    · show ((8820 * k : ℕ) : ℚ) / 44100 + 2/5 < durationOf y
      rw [durationOf]
      have hq : ((8820 * k : ℕ) : ℚ) + 17640 < (y.length : ℚ) := by
        exact_mod_cast hlt
      have h44 : (0 : ℚ) < 44100 := by norm_num
      have := (div_lt_div_iff_of_pos_right h44).mpr hq
      rw [add_div] at this
      have h240 : (17640 : ℚ) / 44100 = 2/5 := by norm_num
      linarith [this, h240.symm.le]
    · rw [windowAt, List.length_take, List.length_drop, windowSamples]
      omega

/-- Counterexample to claim C6 as stated: a signal exactly one window
(0.4 s) long has a valid window position at `t = 0`, but Python's
`range(0, 0, 8820)` is empty, so no loudness sample at all is emitted and
the timeline does not cover `[0, duration)`. -/
theorem C6_coverage_counterexample :
    loudness (List.replicate 17640 (0 : ℚ)) = [] ∧
    0 < durationOf (List.replicate 17640 (0 : ℚ)) := by
  constructor
  · rw [loudness, loudStarts]
    have hc : loudCount (List.replicate 17640 (0 : ℚ)).length = 0 := by
      rw [List.length_replicate, loudCount, windowSamples]
    rw [hc]
    rfl
  · rw [durationOf, List.length_replicate]
    norm_num

/-- Witness for `C6_loudness_samples` at a concrete input. -/
theorem C6_loudness_samples_witness :
    loudSampleAt (List.replicate 17641 (0 : ℚ)) 0 ∈ loudness (List.replicate 17641 (0 : ℚ)) ∧
    0 ≤ (loudSampleAt (List.replicate 17641 (0 : ℚ)) 0).t ∧
    (loudSampleAt (List.replicate 17641 (0 : ℚ)) 0).t + 2/5 <
      durationOf (List.replicate 17641 (0 : ℚ)) := by
  have hmem : loudSampleAt (List.replicate 17641 (0 : ℚ)) 0 ∈
      loudness (List.replicate 17641 (0 : ℚ)) := by
    rw [loudness, loudStarts]
    have hc : loudCount (List.replicate 17641 (0 : ℚ)).length = 1 := by
      rw [List.length_replicate, loudCount, windowSamples]
    rw [hc, show List.range 1 = [0] from rfl]
    simp only [List.map_cons, List.map_nil, Nat.mul_zero]
    exact List.mem_singleton.mpr rfl
  have h := (C6_loudness_samples (List.replicate 17641 (0 : ℚ))).2.2 _ hmem
  exact ⟨hmem, h.1, h.2.1⟩

/-! ### Key/mode estimator (`analyze_audio_squareboom.py` lines 170-190) -/

/-- `list(key_profiles.keys())` (lines 173-176), in dictionary order. -/
def keyNames : List String :=
  "C" :: "C#" :: "D" :: "D#" :: "E" :: "F" ::
    "F#" :: "G" :: "G#" :: "A" :: "A#" :: ["B"]

/-- `chroma_avg = np.mean(chromagram, axis=1)` (line 179): the mean of
each pitch-class row of the backend chromagram (`chroma_cqt` always
returns 12 rows). -/
def chromaAvg (rows : List (List ℚ)) : List ℚ := rows.map meanQ

/-- `key_idx = np.argmax(chroma_avg)` (line 180). -/
def keyIdxOf (rows : List (List ℚ)) : ℕ := npArgmax (chromaAvg rows)

/-- `key = list(key_profiles.keys())[key_idx]` (line 181); the index is
always below 12 for a 12-row chromagram, so the default is unreachable. -/
def keyNameOf (rows : List (List ℚ)) : String := keyNames.getD (keyIdxOf rows) "C"

/-- Lines 184-190: `maj` iff the averaged energy at the major third
`(key_idx + 4) % 12` strictly exceeds that at the minor third
`(key_idx + 3) % 12`, else `min`. -/
def modeOf (rows : List (List ℚ)) : String :=
  if (chromaAvg rows).getD ((keyIdxOf rows + 3) % 12) 0 <
      (chromaAvg rows).getD ((keyIdxOf rows + 4) % 12) 0 then "maj" else "min"

/-! ### Helper lemmas for `npArgmax` -/

theorem argmaxAux_spec :
    ∀ (rest : List ℚ) (i b : ℕ) (v : ℚ),
      ∃ w : ℚ,
        ((argmaxAux rest i b v = b ∧ w = v) ∨
          (∃ k, k < rest.length ∧ argmaxAux rest i b v = i + k ∧ w = rest.getD k 0)) ∧
        v ≤ w ∧ ∀ x ∈ rest, x ≤ w := by
  intro rest
  induction rest with
  | nil =>
    intro i b v
    exact ⟨v, Or.inl ⟨rfl, rfl⟩, le_refl v, by simp⟩
  | cons x rest ih =>
    intro i b v
    rw [argmaxAux]
    by_cases h : v < x
    · rw [if_pos h]
      obtain ⟨w, hcase, hvw, hall⟩ := ih (i + 1) i x
      refine ⟨w, ?_, le_trans (le_of_lt h) hvw, ?_⟩
      · rcases hcase with ⟨heq, hw⟩ | ⟨k, hk, heq, hw⟩
        · refine Or.inr ⟨0, by simp, ?_, by simp [hw]⟩
          rw [heq]
          omega
        · refine Or.inr ⟨k + 1, by simp; omega, ?_, by simp [hw]⟩
          rw [heq]
          omega
      · intro z hz
        rcases List.mem_cons.mp hz with rfl | hz2
        · exact hvw
        · exact hall z hz2
    · rw [if_neg h]
      obtain ⟨w, hcase, hvw, hall⟩ := ih (i + 1) b v
      refine ⟨w, ?_, hvw, ?_⟩
      · rcases hcase with ⟨heq, hw⟩ | ⟨k, hk, heq, hw⟩
        · exact Or.inl ⟨heq, hw⟩
        · refine Or.inr ⟨k + 1, by simp; omega, ?_, by simp [hw]⟩
          rw [heq]
          omega
      · intro z hz
        rcases List.mem_cons.mp hz with rfl | hz2
        · exact le_trans (not_lt.mp h) hvw
        · exact hall z hz2

theorem npArgmax_spec (xs : List ℚ) (h : xs ≠ []) :
    npArgmax xs < xs.length ∧ ∀ x ∈ xs, x ≤ xs.getD (npArgmax xs) 0 := by
  cases xs with
  | nil => exact absurd rfl h
  | cons x rest =>
    rw [npArgmax]
    obtain ⟨w, hcase, hvw, hall⟩ := argmaxAux_spec rest 1 0 x
    have hw_get : argmaxAux rest 1 0 x < rest.length + 1 ∧
        w = (x :: rest).getD (argmaxAux rest 1 0 x) 0 := by
      rcases hcase with ⟨heq, hw⟩ | ⟨k, hk, heq, hw⟩
      · rw [heq]
        exact ⟨Nat.succ_pos _, by simp [hw]⟩
      · rw [heq]
        constructor
        · omega
        · rw [show 1 + k = k + 1 by omega]
          simp [hw]
    constructor
    · simpa using hw_get.1
    · intro z hz
      rw [← hw_get.2]
      rcases List.mem_cons.mp hz with rfl | hz2
      · exact hvw
      · exact hall z hz2

/-! ### Claim theorems: C7 -/

/-- Claim C7: for a 12-row chromagram, the tonic is one of the 12 defined
pitch classes, the frame-averaged energy at the tonic is maximal, and the
mode is `maj` exactly when the averaged energy at `(tonic + 4) % 12`
strictly exceeds that at `(tonic + 3) % 12`, and `min` otherwise. -/
theorem C7_key_mode (rows : List (List ℚ)) (h12 : rows.length = 12) :
    keyIdxOf rows < 12 ∧
    keyNameOf rows ∈ keyNames ∧
    (∀ x ∈ chromaAvg rows, x ≤ (chromaAvg rows).getD (keyIdxOf rows) 0) ∧
    (modeOf rows = "maj" ↔
      (chromaAvg rows).getD ((keyIdxOf rows + 3) % 12) 0 <
        (chromaAvg rows).getD ((keyIdxOf rows + 4) % 12) 0) ∧
    (modeOf rows = "maj" ∨ modeOf rows = "min") := by
  have hlen : (chromaAvg rows).length = 12 := by
    rw [chromaAvg, List.length_map, h12]
  have hne : chromaAvg rows ≠ [] := by
    intro hc
    rw [hc] at hlen
    simp at hlen
  obtain ⟨hlt, hmax⟩ := npArgmax_spec (chromaAvg rows) hne
  rw [hlen] at hlt
  have hidx : keyIdxOf rows < 12 := hlt
  refine ⟨hidx, ?_, hmax, ?_, ?_⟩
  · rw [keyNameOf]
    have hkl : keyIdxOf rows < keyNames.length := by
      rw [show keyNames.length = 12 from rfl]
      exact hidx
    rw [List.getD_eq_getElem _ _ hkl]
    exact List.getElem_mem hkl
  · rw [modeOf]
    by_cases hc : (chromaAvg rows).getD ((keyIdxOf rows + 3) % 12) 0 <
        (chromaAvg rows).getD ((keyIdxOf rows + 4) % 12) 0
    · rw [if_pos hc]
      exact iff_of_true rfl hc
    · rw [if_neg hc]
      constructor
      · intro hbad
        exact absurd hbad (by decide)
      · intro hbad
        exact absurd hbad hc
  · rw [modeOf]
    by_cases hc : (chromaAvg rows).getD ((keyIdxOf rows + 3) % 12) 0 <
        (chromaAvg rows).getD ((keyIdxOf rows + 4) % 12) 0
    · rw [if_pos hc]
      exact Or.inl rfl
    · rw [if_neg hc]
      exact Or.inr rfl

/-- Witness for `C7_key_mode` at a concrete input. -/
theorem C7_key_mode_witness :
    (List.replicate 12 [(1 : ℚ)]).length = 12 ∧
    keyIdxOf (List.replicate 12 [(1 : ℚ)]) < 12 ∧
    keyNameOf (List.replicate 12 [(1 : ℚ)]) ∈ keyNames ∧
    (modeOf (List.replicate 12 [(1 : ℚ)]) = "maj" ∨
      modeOf (List.replicate 12 [(1 : ℚ)]) = "min") := by
  have h := C7_key_mode (List.replicate 12 [(1 : ℚ)]) (List.length_replicate 12 _)
  exact ⟨List.length_replicate 12 _, h.1, h.2.1, h.2.2.2.2⟩

/-! ### Aggregator confidence (`analyze_audio_squareboom.py` line 223,
`analyze_audio.py` lines 88-89) -/

/-- `float(np.mean(onset_env) / (np.std(onset_env) + 1e-10))` (squareboom
line 223); `none` models the NaN on an empty envelope. -/
noncomputable def confidenceSB (env : List ℚ) : Option ℝ :=
  if env = [] then none
  else some (((meanQ env : ℚ) : ℝ) / (Real.sqrt ((varQ env : ℚ) : ℝ) + 1e-10))

/-- `float(min(np.mean(onset_strength) / 0.5, 1.0))` (`analyze_audio.py`
line 89). -/
def confidenceSimple (env : List ℚ) : Option ℚ :=
  if env = [] then none else some (min (meanQ env / 0.5) 1)

theorem meanQ_nonneg {env : List ℚ} (hnn : ∀ x ∈ env, 0 ≤ x) : 0 ≤ meanQ env := by
  rw [meanQ]
  apply div_nonneg (List.sum_nonneg hnn)
  exact_mod_cast Nat.zero_le _

/-! ### Claim theorems: C8 -/

/-- Claim C8, corrected at the counterexample below: the two pipelines do
compute `mean/(std + 1e-10)` and `min(mean/0.5, 1.0)` respectively, and
for a nonnegative nonempty envelope the simple variant lies in `[0, 1]`
and the richer variant is nonnegative — but the richer variant is *not*
clamped and can exceed 1. -/
theorem C8_confidence (env : List ℚ) (hne : env ≠ []) (hnn : ∀ x ∈ env, 0 ≤ x) :
    confidenceSB env =
      some (((meanQ env : ℚ) : ℝ) / (Real.sqrt ((varQ env : ℚ) : ℝ) + 1e-10)) ∧
    confidenceSimple env = some (min (meanQ env / 0.5) 1) ∧
    (∃ c : ℝ, confidenceSB env = some c ∧ 0 ≤ c) ∧
    (∃ c : ℚ, confidenceSimple env = some c ∧ 0 ≤ c ∧ c ≤ 1) := by
  have hm : 0 ≤ meanQ env := meanQ_nonneg hnn
  refine ⟨by rw [confidenceSB, if_neg hne], by rw [confidenceSimple, if_neg hne], ?_, ?_⟩
  · refine ⟨_, by rw [confidenceSB, if_neg hne], ?_⟩
    apply div_nonneg
    · exact_mod_cast hm
    · have h1 : (0 : ℝ) ≤ Real.sqrt ((varQ env : ℚ) : ℝ) := Real.sqrt_nonneg _
      have h2 : (0 : ℝ) < 1e-10 := by norm_num
      linarith
  · refine ⟨_, by rw [confidenceSimple, if_neg hne], ?_, min_le_right _ _⟩
    apply le_min
    · apply div_nonneg hm
      norm_num
    · norm_num

/-- Counterexample to claim C8 as stated: a constant envelope `[1, 1, 1]`
has mean 1 and standard deviation 0, so the richer pipeline emits
`1 / 1e-10 = 10^10`, far outside `[0, 1]` (the value is not clamped). -/
theorem C8_unclamped_counterexample :
    confidenceSB [1, 1, 1] = some ((10 : ℝ) ^ 10) ∧ (1 : ℝ) < (10 : ℝ) ^ 10 := by
  constructor
  · rw [confidenceSB, if_neg (by simp)]
    have hm : meanQ [(1 : ℚ), 1, 1] = 1 := by norm_num [meanQ]
    have hv : varQ [(1 : ℚ), 1, 1] = 0 := by norm_num [varQ, meanQ]
    rw [hm, hv]
    norm_num [Real.sqrt_zero]
  · norm_num

/-- Witness for `C8_confidence` at a concrete input. -/
theorem C8_confidence_witness :
    ([(1 : ℚ), 2] ≠ []) ∧ (∀ x ∈ [(1 : ℚ), 2], 0 ≤ x) ∧
    (∃ c : ℝ, confidenceSB [(1 : ℚ), 2] = some c ∧ 0 ≤ c) ∧
    (∃ c : ℚ, confidenceSimple [(1 : ℚ), 2] = some c ∧ 0 ≤ c ∧ c ≤ 1) := by
  have h1 : [(1 : ℚ), 2] ≠ [] := by simp
  have h2 : ∀ x ∈ [(1 : ℚ), 2], 0 ≤ x := by norm_num
  have h := C8_confidence [(1 : ℚ), 2] h1 h2
  exact ⟨h1, h2, h.2.2.1, h.2.2.2⟩

/-! ### Process exit behaviour (`analyze_audio_squareboom.py` lines
20-29, 233-251; `analyze_audio.py` lines 19-25, 109-114, 135-147) -/

/-- The facts about one invocation that the scripts branch on: whether the
input file exists, whether librosa imported, whether `librosa.load`
succeeds, and whether the analysis stages and output write run without
raising. -/
structure RunEnv where
  fileExists : Bool
  librosa : Bool
  decodeOk : Bool
  stagesOk : Bool
  deriving DecidableEq

/-- Observable outcome: the process exit code, whether the result JSON was
written, and whether a failure message went to stderr. -/
structure RunOutcome where
  exitCode : ℕ
  wroteJson : Bool
  stderrMsg : Bool
  deriving DecidableEq

/-- `analyze_audio_squareboom.py`: `__main__` checks `Path(audio_path).exists()`
before anything else (lines 247-249); `analyze_audio_squareboom` exits 1
if librosa is unavailable (lines 23-25); the `try` body decodes, analyses
and writes, and any exception prints to stderr and exits 1 (lines 233-237);
otherwise the process ends with status 0. -/
def runSquareBoom (e : RunEnv) : RunOutcome :=
  if ¬ e.fileExists then ⟨1, false, true⟩
  else if ¬ e.librosa then ⟨1, false, true⟩
  else if ¬ e.decodeOk then ⟨1, false, true⟩
  else if ¬ e.stagesOk then ⟨1, false, true⟩
  else ⟨0, true, false⟩

/-- `analyze_audio.py`: the same existence check first (lines 143-145);
with librosa, `analyze_with_librosa` exits 1 with a stderr message on any
exception (lines 109-114) and writes the JSON otherwise; without librosa,
`analyze_simple` writes the fixed JSON and exits 0 without ever decoding
(lines 22-25, 116-133). -/
def runAnalyzeAudio (e : RunEnv) : RunOutcome :=
  if ¬ e.fileExists then ⟨1, false, true⟩
  else if e.librosa then
    if ¬ e.decodeOk then ⟨1, false, true⟩
    else if ¬ e.stagesOk then ⟨1, false, true⟩
    else ⟨0, true, false⟩
  else ⟨0, true, false⟩

/-! ### Claim theorems: C9 -/

/-- Claim C9, corrected at the counterexample below: both scripts exit
nonzero with a stderr message when the file is missing (checked before
any decoding) or when decoding or an analysis stage raises, and write the
JSON and exit 0 when everything succeeds — but the squareboom variant
also exits 1, without writing, in the additional case that librosa is
unavailable, and the simpler script then writes its fallback JSON and
exits 0 without decoding at all. -/
theorem C9_exit_behaviour (e : RunEnv) :
    (e.fileExists = false →
      runSquareBoom e = ⟨1, false, true⟩ ∧ runAnalyzeAudio e = ⟨1, false, true⟩) ∧
    (runSquareBoom e = ⟨0, true, false⟩ ↔
      e.fileExists = true ∧ e.librosa = true ∧ e.decodeOk = true ∧ e.stagesOk = true) ∧
    ((runSquareBoom e).exitCode ≠ 0 →
      (runSquareBoom e).wroteJson = false ∧ (runSquareBoom e).stderrMsg = true) ∧
    (runAnalyzeAudio e = ⟨0, true, false⟩ ↔
      e.fileExists = true ∧ (e.librosa = false ∨ (e.decodeOk = true ∧ e.stagesOk = true))) ∧
    ((runAnalyzeAudio e).exitCode ≠ 0 →
      (runAnalyzeAudio e).wroteJson = false ∧ (runAnalyzeAudio e).stderrMsg = true) := by
  obtain ⟨fe, lb, dc, st⟩ := e
  cases fe <;> cases lb <;> cases dc <;> cases st <;> decide

/-- Counterexample to claim C9 as stated: with the input file present,
decoding fine and all stages fine but librosa unavailable, the squareboom
script exits 1 and writes nothing, although the claim's only failure
conditions (missing file, decode error, stage error) are all absent. -/
theorem C9_librosa_missing_counterexample :
    runSquareBoom ⟨true, false, true, true⟩ = ⟨1, false, true⟩ ∧
    (runSquareBoom ⟨true, false, true, true⟩).exitCode ≠ 0 ∧
    (runSquareBoom ⟨true, false, true, true⟩).wroteJson = false := by
  decide

/-- Witness for `C9_exit_behaviour` at a concrete input. -/
theorem C9_exit_behaviour_witness :
    (RunEnv.mk false true true true).fileExists = false ∧
    runSquareBoom ⟨false, true, true, true⟩ = ⟨1, false, true⟩ ∧
    runAnalyzeAudio ⟨false, true, true, true⟩ = ⟨1, false, true⟩ := by
  have h := (C9_exit_behaviour ⟨false, true, true, true⟩).1 rfl
  exact ⟨rfl, h.1, h.2⟩
